import Mathlib

/-!
# Verification of the mev-bot-watcher core against its specification

Shallow embedding of the repository's Python sources:
  * `src/tx_analyzer.py`   — address normalization, receipt parsing, block
    aggregation, log-range scanning;
  * `src/telegram_notifier.py` — the notification batcher and report formatter;
  * `src/ws_connector.py`  — the subscription-setup phase of the websocket
    multiplexer.

Python strings are modelled as `List Char`.  The Python string methods used by
the source (`str.strip`, `str.lower`, `str.upper`, `str.zfill`, slicing and
`int(_, 16)`) are given executable Lean models below.  `str.strip` is modelled
over the ASCII whitespace characters; `str.lower`/`str.upper` are modelled by
the ASCII case table (all data the program compares — hex addresses, topics,
bot names — is ASCII).  Python integers are unbounded, so `Nat`/`Int` model
them exactly.  External collaborators (the JSON-RPC transport, the Telegram
HTTP call, the price oracle, the websocket) are modelled as oracles/outcome
parameters, per the spec's interface section.
-/

/-! ## Python string primitives -/

/-- ASCII whitespace: the characters `str.strip` removes from either end
(restricted to the ASCII range; the program only strips address strings). -/
def isPySpace (c : Char) : Bool :=
  c == ' ' || c == '\t' || c == '\n' || c == '\r' || c == '\x0b' || c == '\x0c'

/-- The ASCII uppercase→lowercase table of `str.lower`. -/
def lowerPairs : List (Char × Char) :=
  [('A','a'), ('B','b'), ('C','c'), ('D','d'), ('E','e'), ('F','f'), ('G','g'),
   ('H','h'), ('I','i'), ('J','j'), ('K','k'), ('L','l'), ('M','m'), ('N','n'),
   ('O','o'), ('P','p'), ('Q','q'), ('R','r'), ('S','s'), ('T','t'), ('U','u'),
   ('V','v'), ('W','w'), ('X','x'), ('Y','y'), ('Z','z')]

/-- The ASCII lowercase→uppercase table of `str.upper`. -/
def upperPairs : List (Char × Char) :=
  [('a','A'), ('b','B'), ('c','C'), ('d','D'), ('e','E'), ('f','F'), ('g','G'),
   ('h','H'), ('i','I'), ('j','J'), ('k','K'), ('l','L'), ('m','M'), ('n','N'),
   ('o','O'), ('p','P'), ('q','Q'), ('r','R'), ('s','S'), ('t','T'), ('u','U'),
   ('v','V'), ('w','W'), ('x','X'), ('y','Y'), ('z','Z')]

/-- `str.lower` on one character (ASCII range). -/
def pyCharLower (c : Char) : Char := (lowerPairs.lookup c).getD c

/-- `str.upper` on one character (ASCII range). -/
def pyCharUpper (c : Char) : Char := (upperPairs.lookup c).getD c

/-- `str.lower` on a whole string. -/
def pyLower (s : List Char) : List Char := s.map pyCharLower

/-- `str.upper` on a whole string. -/
def pyUpper (s : List Char) : List Char := s.map pyCharUpper

/-- `str.strip()`: remove leading and trailing whitespace. -/
def pyStrip (s : List Char) : List Char :=
  ((s.dropWhile isPySpace).reverse.dropWhile isPySpace).reverse

/-- `str.zfill(width)`: pad with `'0'` on the left up to `width`, keeping a
leading sign character (`'+'`/`'-'`) in front of the padding, as in Python. -/
def pyZfill (width : Nat) (s : List Char) : List Char :=
  if width ≤ s.length then s
  else if s.headD '0' == '+' || s.headD '0' == '-' then
    s.headD '0' :: (List.replicate (width - s.length) '0' ++ s.tail)
  else
    List.replicate (width - s.length) '0' ++ s

/-- `s[-n:]`: the last `n` characters (the whole string when shorter). -/
def takeLast (n : Nat) (s : List Char) : List Char := s.drop (s.length - n)

/-- Does the string start with the two characters `0x`? -/
def starts0x : List Char → Bool
  | a :: b :: _ => a == '0' && b == 'x'
  | _ => false

/-- Digit values accepted by `int(_, 16)`. -/
def hexValPairs : List (Char × Nat) :=
  [('0',0), ('1',1), ('2',2), ('3',3), ('4',4), ('5',5), ('6',6), ('7',7),
   ('8',8), ('9',9), ('a',10), ('b',11), ('c',12), ('d',13), ('e',14),
   ('f',15), ('A',10), ('B',11), ('C',12), ('D',13), ('E',14), ('F',15)]

/-- Is `c` one of the digit characters `int(_, 16)` accepts? -/
def hexChar (c : Char) : Bool := (hexValPairs.lookup c).isSome

/-- The value of one hex digit (junk characters map to 0; Python would raise,
and the program only ever parses well-formed hex). -/
def hexDigitVal (c : Char) : Nat := (hexValPairs.lookup c).getD 0

/-- Python `int(s, 16)`: surrounding whitespace and a `0x`/`0X` prefix are
accepted, digits are case-insensitive. -/
def hexToNat (s : List Char) : Nat :=
  let t := pyLower (pyStrip s)
  let t := if starts0x t then t.drop 2 else t
  t.foldl (fun n c => 16 * n + hexDigitVal c) 0

/-! ## src/tx_analyzer.py -/

/-- The intermediate of `normalize_address` (src/tx_analyzer.py:19-24): the
input stripped, lowercased, with a `0x` prefix removed. -/
def addrCore (addr : List Char) : List Char :=
  let a := pyLower (pyStrip addr)
  if starts0x a then a.drop 2 else a

/-- `normalize_address` (src/tx_analyzer.py:19-24):
`addr.strip().lower()`, drop a `0x` prefix, then `'0x' + addr.zfill(40)`. -/
def normalize_address (addr : List Char) : List Char :=
  '0' :: 'x' :: pyZfill 40 (addrCore addr)

/-- `ERC20_TRANSFER_TOPIC` (src/tx_analyzer.py:7). -/
def ERC20_TRANSFER_TOPIC : List Char :=
  ("0xddf252ad1be2c89b69c2b068fc378daa952ba7f163c4a11628f55a4df523b3ef").toList

/-- A receipt log entry, as consumed by `parse_receipt`. -/
structure RLog where
  address : List Char
  topics : List (List Char)
  data : List Char
deriving DecidableEq

/-- A transaction receipt, the fields `parse_receipt` reads. -/
structure Receipt where
  status : List Char
  gasUsed : List Char
  effectiveGasPrice : List Char
  logs : List RLog
deriving DecidableEq

/-- The dict returned by `parse_receipt` (spec: TxDetail). -/
structure TxDetail where
  status : Nat
  tx_hash : List Char
  incoming_wei : List Nat
  outgoing_wei : List Nat
  gas_fee_wei : Nat
deriving DecidableEq

/-- `parse_transfer_event` (src/tx_analyzer.py:10-16):
`("0x" + topics[1][-40:].lower(), "0x" + topics[2][-40:].lower(), int(data, 16))`.
Indexing a missing topic is modelled with the `[]` default (Python would
raise; the function is only invoked on three-topic Transfer logs). -/
def parse_transfer_event (topics : List (List Char)) (data : List Char) :
    List Char × List Char × Nat :=
  ('0' :: 'x' :: pyLower (takeLast 40 (topics.getD 1 [])),
   '0' :: 'x' :: pyLower (takeLast 40 (topics.getD 2 [])),
   hexToNat data)

/-- The analyzer's configuration: `TxAnalyzer.__init__` stores both addresses
normalized (src/tx_analyzer.py:30-34). -/
structure TxAnalyzer where
  weth_contract_address : List Char
  watched_address : List Char
deriving DecidableEq

/-- `TxAnalyzer(eth_client, weth, watched)`: the constructor normalizes both
addresses. -/
def TxAnalyzer.make (weth watched : List Char) : TxAnalyzer :=
  ⟨normalize_address weth, normalize_address watched⟩

/-- The log filter of the `parse_receipt` loop (src/tx_analyzer.py:44-45):
`log['topics'][0].lower() == ERC20_TRANSFER_TOPIC and
 normalize_address(log['address']) == weth_contract_address`. -/
def logRelevant (a : TxAnalyzer) (l : RLog) : Bool :=
  pyLower (l.topics.getD 0 []) == ERC20_TRANSFER_TOPIC &&
    normalize_address l.address == a.weth_contract_address

/-- `TxAnalyzer.parse_receipt` (src/tx_analyzer.py:36-58).  The Python loop
appends each relevant transfer's amount to `outgoing_wei` when
`from_address == watched_address` and to `incoming_wei` when
`to_address == watched_address`; appending in loop order is the same as
filtering then mapping. -/
def TxAnalyzer.parse_receipt (a : TxAnalyzer) (receipt : Receipt)
    (txHash : List Char) : TxDetail :=
  { status := hexToNat receipt.status
    tx_hash := txHash
    incoming_wei :=
      (receipt.logs.filter fun l =>
        logRelevant a l &&
          ((parse_transfer_event l.topics l.data).2.1 == a.watched_address)).map
        fun l => (parse_transfer_event l.topics l.data).2.2
    outgoing_wei :=
      (receipt.logs.filter fun l =>
        logRelevant a l &&
          ((parse_transfer_event l.topics l.data).1 == a.watched_address)).map
        fun l => (parse_transfer_event l.topics l.data).2.2
    gas_fee_wei := hexToNat receipt.gasUsed * hexToNat receipt.effectiveGasPrice }

/-- One transaction's term in the `net_wei_change` sum of
`create_block_summary` (src/tx_analyzer.py:96-97):
`sum(tx.incoming_wei) - sum(tx.outgoing_wei) - tx.gas_fee_wei`. -/
def txNetContribution (d : TxDetail) : Int :=
  (d.incoming_wei.sum : Int) - (d.outgoing_wei.sum : Int) - (d.gas_fee_wei : Int)

/-- A transaction of a block body.  `to_addr` is `None` for contract-creation
transactions (`from` is a Lean keyword, hence `from_addr`). -/
structure BlockTx where
  from_addr : List Char
  to_addr : Option (List Char)
  hash : List Char
deriving DecidableEq

/-- A block with full transactions, the fields `analyze_block` reads. -/
structure Block where
  number : List Char
  transactions : List BlockTx
deriving DecidableEq

/-- The numeric/boolean fields of the dict built by `create_block_summary`
(src/tx_analyzer.py:80-114).  The presentation-only string fields
(`txs`, `incoming_weth`, …) are formatted through float division
(`prettify_weth`) and are not part of any claim, so they are omitted. -/
structure BlockSummary where
  has_fails : Bool
  block_number : Nat
  net_wei_change : Int
  tx_count : Nat
  fail_count : Nat
  total_gas_wei : Nat
deriving DecidableEq

/-- `TxAnalyzer.create_block_summary` (src/tx_analyzer.py:80-114), numeric
fields. -/
def create_block_summary (block : Block) (ds : List TxDetail) : BlockSummary :=
  { has_fails := ds.any fun d => d.status == 0
    block_number := hexToNat block.number
    net_wei_change := (ds.map txNetContribution).sum
    tx_count := ds.length
    fail_count := ds.countP fun d => d.status == 0
    total_gas_wei := (ds.map fun d => d.gas_fee_wei).sum }

/-- `tx_to = normalize_address(tx['to']) if tx['to'] else None`
(src/tx_analyzer.py:66): an absent or empty `to` is falsy. -/
def txToNorm (tx : BlockTx) : Option (List Char) :=
  match tx.to_addr with
  | some t => if t = [] then none else some (normalize_address t)
  | none => none

/-- The match condition of the `analyze_block` loop (src/tx_analyzer.py:65-67):
`tx_from == watched_address or (tx_to and tx_to == watched_address)`. -/
def tx_matches (a : TxAnalyzer) (tx : BlockTx) : Bool :=
  normalize_address tx.from_addr == a.watched_address ||
    (match txToNorm tx with
     | some t => t == a.watched_address
     | none => false)

/-- `TxAnalyzer.analyze_block` (src/tx_analyzer.py:60-73).  The external
`eth_client.get_transaction_receipt` is the oracle `getReceipt`.  The Python
loop appends `parse_receipt(receipt, hash)` for each matching transaction in
order, which is a filter followed by a map; the function returns the summary
when the collected list is nonempty and `None` otherwise. -/
def TxAnalyzer.analyze_block (a : TxAnalyzer) (getReceipt : List Char → Receipt)
    (block : Block) : Option BlockSummary :=
  let ds := (block.transactions.filter (tx_matches a)).map fun tx =>
    a.parse_receipt (getReceipt tx.hash) tx.hash
  if ds.isEmpty then none else some (create_block_summary block ds)

/-- A log returned by `eth_getLogs`; `get_relevant_blocks` only reads its
hex-encoded `blockNumber`. -/
structure GLog where
  blockNumber : List Char
deriving DecidableEq

/-- The log oracle over a closed block range `[fromB, toB]`: the logs a
consistent `eth_getLogs` backend returns are the concatenation, block by
block, of a per-block log function (the claim's "query oracle consistent
across subranges"). -/
def getLogsRange (oracle : Nat → List GLog) (fromB toB : Nat) : List GLog :=
  (List.range' fromB (toB + 1 - fromB)).flatMap oracle

/-- Python `range(a, b, step)` for a positive step. -/
def pyRangeStep (a b step : Nat) : List Nat :=
  if _h9 : 0 < step ∧ a < b then a :: pyRangeStep (a + step) b step else []
termination_by b - a
decreasing_by omega

/-- `TxAnalyzer.get_relevant_blocks` (src/tx_analyzer.py:116-138): for each
chunk `[fromB, min(fromB + chunk - 1, endB)]` of `range(start, end+1, chunk)`
it queries logs with the watched address as the padded "from" topic
(`oracleF`) and as the padded "to" topic (`oracleT`), and collects
`int(log['blockNumber'], 16)` of every log into a set.  The default
`chunk_size` in the source is 10000. -/
def get_relevant_blocks (oracleF oracleT : Nat → List GLog)
    (startB endB chunkSize : Nat) : Finset Nat :=
  ((pyRangeStep startB (endB + 1) chunkSize).flatMap fun fromB =>
    ((getLogsRange oracleF fromB (min (fromB + chunkSize - 1) endB)) ++
      (getLogsRange oracleT fromB (min (fromB + chunkSize - 1) endB))).map
      fun l => hexToNat l.blockNumber).toFinset

/-- Written from the spec's words for C7, to be compared with
`get_relevant_blocks`: "the union, deduplicated, of block numbers from both
'from' and 'to' filtered queries" over the whole closed range
`[startB, endB]`, with no chunking. -/
def candidateBlocksSpec (oracleF oracleT : Nat → List GLog)
    (startB endB : Nat) : Finset Nat :=
  (((getLogsRange oracleF startB endB) ++ (getLogsRange oracleT startB endB)).map
    fun l => hexToNat l.blockNumber).toFinset

/-! ## src/telegram_notifier.py -/

/-- `TxEvent` (src/telegram_notifier.py:12-22). -/
structure TxEvent where
  bot_name : List Char
  watched_address : List Char
  block_number : Nat
  tx_count : Nat
  fail_count : Nat
  net_wei_change : Int
  gas_fee_wei : Nat
  timestamp : Nat
deriving DecidableEq, Inhabited

/-- Decimal rendering of a natural number, as Python's `str`. -/
def natDec (n : Nat) : List Char := Nat.toDigits 10 n

/-- Decimal rendering of a Python integer. -/
def intDec (i : Int) : List Char :=
  if i < 0 then '-' :: natDec i.natAbs else natDec i.toNat

/-- Round-half-even division of `a` by a positive `b` (the rounding of a tie
to the even quotient, as in IEEE formatting). -/
def roundHalfEvenDiv (a : Int) (b : Nat) : Int :=
  let q := Int.ediv a b
  let r := Int.emod a b
  if 2 * r < (b : Int) then q
  else if (b : Int) < 2 * r then q + 1
  else if Int.emod q 2 = 0 then q else q + 1

/-- `f"{wei / 1e18:+.6f}"` (src/telegram_notifier.py:131,136): the net change
in ETH with six decimals and an explicit sign.  Python divides in binary
floating point before formatting; this model rounds the exact rational
`wei / 10^18` half-to-even, which agrees on the event values at the precision
the program uses (and no claim depends on the digits). -/
def signed6 (wei : Int) : List Char :=
  let scaled := roundHalfEvenDiv wei (10 ^ 12)
  let sign := if scaled < 0 then '-' else '+'
  let n := scaled.natAbs
  let frac := natDec (n % 10 ^ 6)
  sign :: (natDec (n / 10 ^ 6) ++ ('.' :: (List.replicate (6 - frac.length) '0' ++ frac)))

/-- `f"{net_eth * price:+.2f}"` (src/telegram_notifier.py:138-139), the USD
conversion, modelled at an integer price with exact rounding (same caveat as
`signed6`; no claim depends on the digits). -/
def signedUsd (wei : Int) (price : Int) : List Char :=
  let cents := roundHalfEvenDiv (wei * price) (10 ^ 16)
  let sign := if cents < 0 then '-' else '+'
  let n := cents.natAbs
  let frac := natDec (n % 100)
  sign :: (natDec (n / 100) ++ ('.' :: (List.replicate (2 - frac.length) '0' ++ frac)))

/-- The keys of `by_bot` in first-seen order (src/telegram_notifier.py:110-112):
Python dicts iterate in insertion order. -/
def botNamesInOrder (events : List TxEvent) : List (List Char) :=
  events.foldl (fun acc e => if e.bot_name ∈ acc then acc else acc ++ [e.bot_name]) []

/-- The five lines `format_report` emits for one bot's group
(src/telegram_notifier.py:116-142).  `by_bot[name]` is the events with that
`bot_name` in arrival order; `bot_events[0]` exists because groups are only
formed for names that occur (the `Inhabited` default is never reached from
`format_report`). -/
def groupLines (events : List TxEvent) (price : Option Int) (name : List Char) :
    List (List Char) :=
  let bot_events := events.filter fun e => e.bot_name == name
  let total_net : Int := (bot_events.map fun e => e.net_wei_change).sum
  let total_txs : Nat := (bot_events.map fun e => e.tx_count).sum
  let total_fails : Nat := (bot_events.map fun e => e.fail_count).sum
  let successful : Int := (total_txs : Int) - (total_fails : Int)
  let addr := (bot_events.headD default).watched_address
  let short_addr := addr.take 6 ++ ("...").toList ++ takeLast 4 addr
  let emoji := if 0 < total_net then '✅' else if total_net < 0 then '❌' else '➖'
  let usd : List Char :=
    match price with
    | some p => if p == 0 then [] else (" ($").toList ++ signedUsd total_net p ++ [')']
    | none => []
  [emoji :: (" *").toList ++ pyUpper name ++ ("*").toList,
   ('\x60' :: short_addr) ++ ['\x60'],
   ("├ Successful txs: ").toList ++ intDec successful ++ ('/' :: natDec total_txs),
   ("└ Total: \x60").toList ++ signed6 total_net ++ (" ETH").toList ++ usd ++ ['\x60'],
   []]

/-- `format_report` (src/telegram_notifier.py:108-144): group by `bot_name`
in first-seen order, emit each group's lines, join with newlines.  `price` is
`eth_price_usd` (`None` when no price was obtained this flush; Python's
`if eth_price_usd:` is also false at price `0`). -/
def format_report (events : List TxEvent) (price : Option Int) : List Char :=
  List.intercalate ['\n'] ((botNamesInOrder events).flatMap (groupLines events price))

/-- The mutable state of `TelegramNotifier` plus the observable interaction
with the Telegram sink: `pending` and `last_sent` are the instance fields
(`0` is the `_last_sent == 0.0` "never sent" sentinel), `sendCalls` counts
invocations of `_send`, and `delivered` records the texts the sink accepted
(HTTP 200).  Time is the `now` argument of each operation. -/
structure NotifierState where
  pending : List TxEvent
  last_sent : Nat
  sendCalls : Nat
  delivered : List (List Char)
deriving DecidableEq

/-- `TelegramNotifier._send` (src/telegram_notifier.py:70-86): one POST to the
Telegram API.  A non-200 response or a network exception is logged and
swallowed, so the state change is only the attempt count and, on success, the
delivered log; `sendOk` is the outcome of the external call. -/
def sendStep (st : NotifierState) (text : List Char) (sendOk : Bool) : NotifierState :=
  { st with
    sendCalls := st.sendCalls + 1
    delivered := if sendOk then st.delivered ++ [text] else st.delivered }

/-- `TelegramNotifier._flush` (src/telegram_notifier.py:55-68): a no-op on an
empty `pending`; otherwise copy-and-clear `pending`, stamp `_last_sent = now`,
best-effort fetch the price (`price` is the outcome, `none` on failure or
without a client), format, and `_send`. -/
def flushStep (st : NotifierState) (now : Nat) (price : Option Int)
    (sendOk : Bool) : NotifierState :=
  if st.pending = [] then st
  else
    sendStep { st with pending := [], last_sent := now }
      (format_report st.pending price) sendOk

/-- `TelegramNotifier.add_event` (src/telegram_notifier.py:43-48): append the
event to `pending`; flush immediately iff `_last_sent` is the never-sent
sentinel. -/
def add_event (st : NotifierState) (e : TxEvent) (now : Nat) (price : Option Int)
    (sendOk : Bool) : NotifierState :=
  let st1 := { st with pending := st.pending ++ [e] }
  if st1.last_sent = 0 then flushStep st1 now price sendOk else st1

/-- `TelegramNotifier.force_flush` (src/telegram_notifier.py:50-53). -/
def force_flush (st : NotifierState) (now : Nat) (price : Option Int)
    (sendOk : Bool) : NotifierState :=
  flushStep st now price sendOk

/-- A fresh `TelegramNotifier` (src/telegram_notifier.py:28-36): empty pending,
`_last_sent = 0.0`, nothing sent. -/
def freshNotifier : NotifierState :=
  { pending := [], last_sent := 0, sendCalls := 0, delivered := [] }

/-! ## src/ws_connector.py -/

/-- One entry of `subscription_setups` (src/ws_connector.py:36-43); the
handler callable is identified by an opaque tag. -/
structure SubSetup where
  sub_type : List Char
  handler : Nat
  arg : Option (List Char)
deriving DecidableEq

/-- An inbound websocket message as `__proceed_subscriptions` distinguishes
them (src/ws_connector.py:82-92): a notification (a decoded JSON object with
a `method` key, carrying `params.subscription`), or an `eth_subscribe`
acknowledgement with correlation `id` and either a `result` subscription id
or an `error`. -/
inductive WsMsg where
  | notif (subscription : List Char)
  | ackOk (id : Nat) (result : List Char)
  | ackErr (id : Nat)
deriving DecidableEq

/-- Assignment `subscriptions[key] = v` into an insertion-ordered dict. -/
def updateAssoc (subs : List (List Char × Nat)) (key : List Char) (v : Nat) :
    List (List Char × Nat) :=
  match subs with
  | [] => [(key, v)]
  | (k, w) :: rest =>
      if k == key then (k, v) :: rest else (k, w) :: updateAssoc rest key v

/-- `WsConnectorRaw.__proceed_subscriptions` (src/ws_connector.py:80-93),
driven by the finite sequence `msgs` of messages the connection will ever
deliver.  The loop runs `while len(subscription_setups) > len(subscriptions)`:
a notification is buffered into `queue_requests`, an error acknowledgement is
logged and skipped (`continue`), a successful acknowledgement stores the
handler of `subscription_setups[id]` under the server-assigned id.  `none`
models the cases in which the loop never returns: `websocket.recv()` blocks
forever once `msgs` is exhausted with the condition still true (or Python
raises on an out-of-range `id`).  On `some (subs, queue, rest)` the function
has returned and `run` enters the demultiplexing loop with subscriptions
`subs`, buffered messages `queue` and remaining traffic `rest`. -/
def proceed_subscriptions (setups : List SubSetup)
    (subs : List (List Char × Nat)) (queue : List WsMsg) (msgs : List WsMsg) :
    Option (List (List Char × Nat) × List WsMsg × List WsMsg) :=
  if setups.length ≤ subs.length then some (subs, queue, msgs)
  else
    match msgs with
    | [] => none
    | WsMsg.notif s :: rest =>
        proceed_subscriptions setups subs (queue ++ [WsMsg.notif s]) rest
    | WsMsg.ackErr _ :: rest => proceed_subscriptions setups subs queue rest
    | WsMsg.ackOk i result :: rest =>
        match setups.get? i with
        | some st =>
            proceed_subscriptions setups (updateAssoc subs result st.handler) queue rest
        | none => none
termination_by msgs.length
decreasing_by all_goals simp [List.length_cons]



/-! ## Concrete fixtures (values from src/tests and the spec's examples) -/

/-- The watched address of src/tests/test_tx_analyzer.py. -/
def WATCHED_ADDRESS : List Char := ("0x0000000000deadbeef00112233445566778899aa").toList

/-- The WETH contract of src/tests/test_tx_analyzer.py. -/
def WETH_CONTRACT : List Char := ("0x82af49447d8a07e3bd95bd0d56f35241523fbab1").toList

def testAnalyzer : TxAnalyzer := TxAnalyzer.make WETH_CONTRACT WATCHED_ADDRESS

def failTxHash : List Char :=
  ("0x3b9b86db4a1a8b999c8c933310a67a28488a7d5d4aea22d74c190843b83a6c17").toList

/-- The failed-transaction receipt of the spec's end-to-end scenario:
`status=0x0`, `gasUsed=0x462ad`, `effectiveGasPrice=0x139cff0`, no logs. -/
def failReceipt : Receipt :=
  { status := ("0x0").toList
    gasUsed := ("0x462ad").toList
    effectiveGasPrice := ("0x139cff0").toList
    logs := [] }

/-- A synthetic block holding exactly the failed transaction, addressed to the
watched address in checksummed (mixed-case) spelling. -/
def failBlock : Block :=
  { number := ("0x19c7fdee").toList
    transactions :=
      [{ from_addr := ("0x0000000000face00000000000000000000cafe00").toList
         to_addr := some (("0x0000000000DeAdBeEf00112233445566778899aA").toList)
         hash := failTxHash }] }

/-- The losing event of the spec's formatting example: net −0.0005 ETH, one
failed transaction. -/
def losingEvent : TxEvent :=
  { bot_name := ("ethereum").toList
    watched_address := ("0x1234567890abcdef1234567890abcdef12345678").toList
    block_number := 18000000
    tx_count := 1
    fail_count := 1
    net_wei_change := -500000000000000
    gas_fee_wei := 500000000000000
    timestamp := 0 }

/-- The fail-count marker the spec (and the repository's own tests) expect in
the report. -/
def failMarker : List Char := ("Неудачных").toList

/-- A notifier that has already sent once and holds one accumulated event. -/
def pendingEventState : NotifierState :=
  { pending := [losingEvent], last_sent := 5, sendCalls := 1, delivered := [] }

def evA : TxEvent :=
  { bot_name := ("a").toList, watched_address := ("0xaa").toList, block_number := 1
    tx_count := 1, fail_count := 0, net_wei_change := 7, gas_fee_wei := 1, timestamp := 0 }

def evB : TxEvent :=
  { bot_name := ("b").toList, watched_address := ("0xbb").toList, block_number := 2
    tx_count := 2, fail_count := 1, net_wei_change := -3, gas_fee_wei := 2, timestamp := 0 }

def setupHeads : SubSetup := { sub_type := ("newHeads").toList, handler := 0, arg := none }

def setupLogs : SubSetup := { sub_type := ("logs").toList, handler := 1, arg := none }

def ackSubId : List Char := ("0xsub1").toList

def oracleOne : Nat → List GLog := fun _ => [{ blockNumber := ("0x5").toList }]

def oracleEmpty : Nat → List GLog := fun _ => []

/-! ## Toolkit: lemmas about the string model -/

theorem lookup_mem {α β : Type} [BEq α] [LawfulBEq α] {l : List (α × β)} {c : α}
    {v : β} (h : l.lookup c = some v) : (c, v) ∈ l := by
  induction l with
  | nil => simp [List.lookup] at h
  | cons p t ih =>
      obtain ⟨p1, p2⟩ := p
      rw [List.lookup_cons] at h
      cases hc : (c == p1) with
      | true =>
          rw [hc] at h
          injection h with h
          have hce : c = p1 := beq_iff_eq.mp hc
          subst hce; subst h
          exact List.mem_cons_self _ _
      | false =>
          rw [hc] at h
          exact List.mem_cons_of_mem _ (ih h)

theorem pyCharLower_idem (c : Char) : pyCharLower (pyCharLower c) = pyCharLower c := by
  unfold pyCharLower
  cases h : lowerPairs.lookup c with
  | none => simp [h]
  | some v =>
      simp only [h, Option.getD_some]
      have hm := lookup_mem h
      fin_cases hm <;> decide

theorem isPySpace_pyCharLower (c : Char) : isPySpace (pyCharLower c) = isPySpace c := by
  unfold pyCharLower
  cases h : lowerPairs.lookup c with
  | none => simp [h]
  | some v =>
      simp only [h, Option.getD_some]
      have hm := lookup_mem h
      fin_cases hm <;> decide

theorem isPySpace_pyCharUpper (c : Char) : isPySpace (pyCharUpper c) = isPySpace c := by
  unfold pyCharUpper
  cases h : upperPairs.lookup c with
  | none => simp [h]
  | some v =>
      simp only [h, Option.getD_some]
      have hm := lookup_mem h
      fin_cases hm <;> decide

theorem pyCharLower_pyCharUpper (c : Char) :
    pyCharLower (pyCharUpper c) = pyCharLower c := by
  unfold pyCharUpper
  cases h : upperPairs.lookup c with
  | none => simp [h]
  | some v =>
      simp only [h, Option.getD_some]
      have hm := lookup_mem h
      fin_cases hm <;> decide

/-- The facts about a character `int(_, 16)` accepts that the address lemmas
use: it is not whitespace, not a sign, lowercasing it cannot give `'x'`, it
stays a hex digit, and lowercasing is idempotent on it. -/
theorem hexChar_facts (c : Char) (h : hexChar c = true) :
    isPySpace c = false ∧ pyCharLower c ≠ 'x' ∧ hexChar (pyCharLower c) = true ∧
      (c == '+' || c == '-') = false := by
  unfold hexChar at h
  obtain ⟨v, hv⟩ := Option.isSome_iff_exists.mp h
  have hm := lookup_mem hv
  fin_cases hm <;> decide

theorem pyLower_idem (s : List Char) : pyLower (pyLower s) = pyLower s := by
  unfold pyLower
  rw [List.map_map]
  exact List.map_congr_left fun c _ => pyCharLower_idem c

theorem mem_pyLower_fixed {s : List Char} {c : Char} (h : c ∈ pyLower s) :
    pyCharLower c = c := by
  obtain ⟨d, _, rfl⟩ := List.mem_map.mp h
  exact pyCharLower_idem d

theorem headD_append_left {α : Type} (l1 l2 : List α) (d : α) (h : l1 ≠ []) :
    (l1 ++ l2).headD d = l1.headD d := by
  cases l1 with
  | nil => exact absurd rfl h
  | cons c t => rfl

theorem dropWhile_headD_not (l : List Char) :
    isPySpace ((l.dropWhile isPySpace).headD '0') = false := by
  induction l with
  | nil => decide
  | cons c t ih =>
      rw [List.dropWhile_cons]
      cases h : isPySpace c with
      | true => simpa using ih
      | false => simpa using h

theorem dropWhile_eq_self_of_headD (l : List Char)
    (h : isPySpace (l.headD '0') = false) : l.dropWhile isPySpace = l := by
  cases l with
  | nil => rfl
  | cons c t =>
      simp only [List.headD_cons] at h
      simp [List.dropWhile_cons, h]

theorem pyStrip_reverse (s : List Char) :
    (pyStrip s).reverse = (s.dropWhile isPySpace).reverse.dropWhile isPySpace := by
  unfold pyStrip
  rw [List.reverse_reverse]

theorem pyStrip_reverse_headD (s : List Char) :
    isPySpace ((pyStrip s).reverse.headD '0') = false := by
  rw [pyStrip_reverse]
  exact dropWhile_headD_not _

theorem pyStrip_eq_self (s : List Char) (h1 : isPySpace (s.headD '0') = false)
    (h2 : isPySpace (s.reverse.headD '0') = false) : pyStrip s = s := by
  unfold pyStrip
  rw [dropWhile_eq_self_of_headD s h1, dropWhile_eq_self_of_headD s.reverse h2,
    List.reverse_reverse]

theorem pyLower_headD_not (l : List Char) (h : isPySpace (l.headD '0') = false) :
    isPySpace ((pyLower l).headD '0') = false := by
  cases l with
  | nil => decide
  | cons c t =>
      simp only [pyLower, List.map_cons, List.headD_cons] at h ⊢
      rw [isPySpace_pyCharLower]
      exact h

theorem pyLower_reverse (s : List Char) : (pyLower s).reverse = pyLower s.reverse := by
  unfold pyLower
  exact (List.map_reverse ..).symm

theorem pyZfill_length (n : Nat) (s : List Char) :
    (pyZfill n s).length = max n s.length := by
  unfold pyZfill
  split_ifs with h hsign
  · omega
  · cases s with
    | nil => simp at hsign
    | cons c rest =>
        simp only [List.tail_cons, List.length_cons, List.length_append,
          List.length_replicate]
        omega
  · simp only [List.length_append, List.length_replicate]
    omega

theorem pyZfill_of_le (n : Nat) (s : List Char) (h : n ≤ s.length) :
    pyZfill n s = s := by
  unfold pyZfill
  rw [if_pos h]

theorem pyZfill_no_sign (n : Nat) (s : List Char)
    (h : (s.headD '0' == '+' || s.headD '0' == '-') = false) :
    pyZfill n s = List.replicate (n - s.length) '0' ++ s := by
  unfold pyZfill
  split_ifs with hle hsign
  · have : n - s.length = 0 := by omega
    rw [this]
    rfl
  · rw [h] at hsign
    exact absurd hsign (by decide)
  · rfl

theorem pyZfill_reverse_headD (n : Nat) (s : List Char)
    (h : isPySpace (s.reverse.headD '0') = false) :
    isPySpace ((pyZfill n s).reverse.headD '0') = false := by
  unfold pyZfill
  split_ifs with hle hsign
  · exact h
  · cases s with
    | nil => simp at hsign
    | cons c t =>
        simp only [List.headD_cons, List.tail_cons]
        rw [List.reverse_cons, List.reverse_append]
        cases ht : t.reverse with
        | nil =>
            have ht' : t = [] := by simpa using congrArg List.reverse ht
            subst ht'
            simp only [List.reverse_nil, List.nil_append]
            rw [List.reverse_replicate]
            have hrep : n - (c :: ([] : List Char)).length ≠ 0 := by
              simp only [List.length_cons, List.length_nil] at hle ⊢
              omega
            cases hk : n - (c :: ([] : List Char)).length with
            | zero => exact absurd hk hrep
            | succ m =>
                rw [List.replicate_succ]
                simp only [List.cons_append, List.headD_cons]
                decide
        | cons d u =>
            simp only [List.cons_append, List.headD_cons]
            rw [List.reverse_cons, ht] at h
            simpa only [List.cons_append, List.headD_cons] using h
  · rw [List.reverse_append]
    cases s with
    | nil =>
        simp only [List.reverse_nil, List.nil_append]
        rw [List.reverse_replicate]
        simp only [List.length_nil, Nat.sub_zero]
        cases n with
        | zero => decide
        | succ m =>
            rw [List.replicate_succ]
            simp only [List.headD_cons]
            decide
    | cons c t =>
        rw [headD_append_left _ _ _ (by simp)]
        exact h

theorem pyLower_pyZfill (n : Nat) (s : List Char) (h : pyLower s = s) :
    pyLower (pyZfill n s) = pyZfill n s := by
  have h0 : pyCharLower '0' = '0' := by decide
  unfold pyZfill
  split_ifs with hle hsign
  · exact h
  · cases s with
    | nil => simp at hsign
    | cons c t =>
        have hc : pyCharLower c = c := by
          have := congrArg (fun l => l.headD '0') h
          simpa [pyLower] using this
        have ht : pyLower t = t := by
          have := congrArg List.tail h
          simpa [pyLower] using this
        simp only [List.headD_cons, List.tail_cons, pyLower, List.map_cons,
          List.map_append, List.map_replicate, h0, hc]
        rw [show List.map pyCharLower t = t from ht]
  · simp only [pyLower, List.map_append, List.map_replicate, h0]
    rw [show List.map pyCharLower s = s from h]

theorem pyLower_drop (n : Nat) (l : List Char) :
    pyLower (l.drop n) = (pyLower l).drop n := by
  unfold pyLower
  exact List.map_drop ..

theorem addrCore_lowered (x : List Char) : pyLower (addrCore x) = addrCore x := by
  simp only [addrCore]
  split_ifs with h
  · rw [pyLower_drop, pyLower_idem]
  · exact pyLower_idem _

theorem drop_reverse_headD (k : Nat) (l : List Char) (h : l.drop k ≠ []) :
    (l.drop k).reverse.headD '0' = l.reverse.headD '0' := by
  conv_rhs => rw [← List.take_append_drop k l]
  rw [List.reverse_append]
  rw [headD_append_left _ _ _ (by simpa using h)]

theorem addrCore_reverse_headD (x : List Char) :
    isPySpace ((addrCore x).reverse.headD '0') = false := by
  have hy : isPySpace ((pyLower (pyStrip x)).reverse.headD '0') = false := by
    rw [pyLower_reverse]
    exact pyLower_headD_not _ (pyStrip_reverse_headD x)
  simp only [addrCore]
  split_ifs with h
  · by_cases hd : (pyLower (pyStrip x)).drop 2 = []
    · rw [hd]; decide
    · rw [drop_reverse_headD 2 _ hd]
      exact hy
  · exact hy

/-- `normalize_address` is the identity on a string of the shape it outputs:
`0x` followed by at least 40 characters that are lowercase-fixed and end in a
non-whitespace character. -/
theorem normalize_fixed (w : List Char) (hwlen : 40 ≤ w.length)
    (hwrev : isPySpace (w.reverse.headD '0') = false)
    (hwlow : pyLower w = w) :
    normalize_address ('0' :: 'x' :: w) = '0' :: 'x' :: w := by
  have hwne : w ≠ [] := by
    intro h0
    rw [h0] at hwlen
    simp at hwlen
  have hstrip : pyStrip ('0' :: 'x' :: w) = '0' :: 'x' :: w := by
    apply pyStrip_eq_self
    · simp only [List.headD_cons]
      decide
    · rw [show ('0' :: 'x' :: w).reverse = w.reverse ++ ['x', '0'] from by simp]
      rw [headD_append_left _ _ _ (by simpa using hwne)]
      exact hwrev
  have hlow : pyLower ('0' :: 'x' :: w) = '0' :: 'x' :: w := by
    unfold pyLower
    simp only [List.map_cons]
    rw [show pyCharLower '0' = '0' from by decide,
      show pyCharLower 'x' = 'x' from by decide]
    rw [show List.map pyCharLower w = w from hwlow]
  unfold normalize_address
  simp only [addrCore]
  rw [hstrip, hlow]
  rw [show starts0x ('0' :: 'x' :: w) = true from rfl]
  simp only [eq_self_iff_true, if_true]
  show '0' :: 'x' :: pyZfill 40 w = '0' :: 'x' :: w
  rw [pyZfill_of_le 40 w hwlen]

/-- `canonical` is idempotent, on every input string. -/
theorem normalize_address_idem (x : List Char) :
    normalize_address (normalize_address x) = normalize_address x :=
  normalize_fixed (pyZfill 40 (addrCore x))
    (by rw [pyZfill_length]; omega)
    (pyZfill_reverse_headD _ _ (addrCore_reverse_headD x))
    (pyLower_pyZfill _ _ (addrCore_lowered x))

theorem pyStrip_map (f : Char → Char) (hf : ∀ c, isPySpace (f c) = isPySpace c)
    (l : List Char) : pyStrip (l.map f) = (pyStrip l).map f := by
  have hdw : ∀ m : List Char,
      (m.map f).dropWhile isPySpace = (m.dropWhile isPySpace).map f := by
    intro m
    rw [List.dropWhile_map]
    have hcomp : (isPySpace ∘ f) = isPySpace := funext hf
    rw [hcomp]
  unfold pyStrip
  rw [hdw, ← List.map_reverse, hdw, List.map_reverse]

theorem normalize_case_insensitive (x : List Char)
    (_hascii : ∀ c ∈ x, c.toNat < 128) :
    normalize_address (pyUpper x) = normalize_address (pyLower x) := by
  have key : pyLower (pyStrip (pyUpper x)) = pyLower (pyStrip (pyLower x)) := by
    rw [show pyUpper x = List.map pyCharUpper x from rfl,
      pyStrip_map pyCharUpper isPySpace_pyCharUpper]
    rw [show pyLower x = List.map pyCharLower x from rfl,
      pyStrip_map pyCharLower isPySpace_pyCharLower]
    unfold pyLower
    rw [List.map_map, List.map_map]
    apply List.map_congr_left
    intro c _
    show pyCharLower (pyCharUpper c) = pyCharLower (pyCharLower c)
    rw [pyCharLower_pyCharUpper, pyCharLower_idem]
  simp only [normalize_address, addrCore]
  rw [key]

/-! ## Claim theorems -/

/-- C10: `canonical` is idempotent (`canonical(canonical(x)) == canonical(x)`
for every string) and case-insensitive (canonicalizing the uppercase spelling
of an ASCII string equals canonicalizing its lowercase spelling), and
`gasFeeWei` is the exact integer product
`hexToInt(gasUsed) * hexToInt(effectiveGasPrice)`, with no rounding. -/
theorem canonical_idem_caseins_gas_exact :
    (∀ x : List Char, normalize_address (normalize_address x) = normalize_address x) ∧
    (∀ x : List Char, (∀ c ∈ x, c.toNat < 128) →
      normalize_address (pyUpper x) = normalize_address (pyLower x)) ∧
    (∀ (a : TxAnalyzer) (r : Receipt) (thash : List Char),
      (a.parse_receipt r thash).gas_fee_wei =
        hexToNat r.gasUsed * hexToNat r.effectiveGasPrice) :=
  ⟨normalize_address_idem, fun x h => normalize_case_insensitive x h,
    fun _ _ _ => rfl⟩

/-- C10 witness: the three parts of `canonical_idem_caseins_gas_exact`
evaluated at concrete inputs. -/
theorem canonical_idem_caseins_gas_exact_witness :
    normalize_address (normalize_address (("0xAbC ").toList)) =
      normalize_address (("0xAbC ").toList) ∧
    normalize_address (pyUpper (("0xAbC").toList)) =
      normalize_address (pyLower (("0xAbC").toList)) ∧
    (testAnalyzer.parse_receipt failReceipt failTxHash).gas_fee_wei =
      hexToNat failReceipt.gasUsed * hexToNat failReceipt.effectiveGasPrice :=
  ⟨canonical_idem_caseins_gas_exact.1 _,
   canonical_idem_caseins_gas_exact.2.1 _ (by decide),
   canonical_idem_caseins_gas_exact.2.2 testAnalyzer failReceipt failTxHash⟩

/-- C2 counterexample: `normalize_address` pads zeros on the LEFT, not on the
right as the claim states: `"0x1"` normalizes to `0x` + 39 zeros + `1`, and
not to `0x1` followed by 39 zeros. -/
theorem normalize_pads_left_not_right :
    normalize_address (("0x1").toList) =
      ('0' :: 'x' :: (List.replicate 39 '0' ++ ['1'])) ∧
    normalize_address (("0x1").toList) ≠
      ('0' :: 'x' :: ('1' :: List.replicate 39 '0')) := by
  decide

/-- C2 (amended): for an input whose stripped, lowercased, de-prefixed core is
hex of at most 40 digits, the canonical form is `0x` followed by exactly 40
lowercase hex characters with zeros padded on the LEFT; and the comparison the
code performs on canonical forms is exactly equality of canonical forms. -/
theorem normalize_address_canonical_form (x : List Char)
    (hhex : ∀ c ∈ addrCore x, hexChar c = true)
    (hlen : (addrCore x).length ≤ 40) :
    normalize_address x =
      '0' :: 'x' :: (List.replicate (40 - (addrCore x).length) '0' ++ addrCore x) ∧
    (normalize_address x).length = 42 ∧
    (∀ c ∈ (normalize_address x).drop 2, hexChar c = true ∧ pyCharLower c = c) ∧
    (∀ a b : List Char, (normalize_address a == normalize_address b) = true ↔
      normalize_address a = normalize_address b) := by
  have hsign : ((addrCore x).headD '0' == '+' || (addrCore x).headD '0' == '-') = false := by
    by_cases hne : addrCore x = []
    · rw [hne]; decide
    · obtain ⟨c, t, hct⟩ := List.exists_cons_of_ne_nil hne
      rw [hct]
      simp only [List.headD_cons]
      exact (hexChar_facts c (hhex c (hct ▸ List.mem_cons_self c t))).2.2.2
  have hform : normalize_address x =
      '0' :: 'x' :: (List.replicate (40 - (addrCore x).length) '0' ++ addrCore x) := by
    unfold normalize_address
    rw [pyZfill_no_sign 40 _ hsign]
  refine ⟨hform, ?_, ?_, ?_⟩
  · rw [hform]
    simp only [List.length_cons, List.length_append, List.length_replicate]
    omega
  · intro c hc
    rw [hform] at hc
    rw [show ('0' :: 'x' :: (List.replicate (40 - (addrCore x).length) '0' ++
      addrCore x)).drop 2 = List.replicate (40 - (addrCore x).length) '0' ++
      addrCore x from rfl] at hc
    rcases List.mem_append.mp hc with hc | hc
    · have h0 := (List.mem_replicate.mp hc).2
      subst h0
      exact ⟨by decide, by decide⟩
    · refine ⟨hhex c hc, ?_⟩
      have hcl : c ∈ pyLower (addrCore x) := by
        rw [addrCore_lowered]
        exact hc
      exact mem_pyLower_fixed hcl
  · intro a b
    exact ⟨fun h => beq_iff_eq.mp h, fun h => beq_iff_eq.mpr h⟩

/-- C2 witness: `normalize_address_canonical_form` at the input `"0xAb12"`. -/
theorem normalize_address_canonical_form_witness :
    normalize_address (("0xAb12").toList) =
      '0' :: 'x' :: (List.replicate (40 - (addrCore (("0xAb12").toList)).length) '0' ++
        addrCore (("0xAb12").toList)) ∧
    (normalize_address (("0xAb12").toList)).length = 42 ∧
    (∀ c ∈ (normalize_address (("0xAb12").toList)).drop 2,
      hexChar c = true ∧ pyCharLower c = c) ∧
    (∀ a b : List Char, (normalize_address a == normalize_address b) = true ↔
      normalize_address a = normalize_address b) :=
  normalize_address_canonical_form (("0xAb12").toList) (by decide) (by decide)

/-- A 40-character hex string normalizes to itself lowercased behind `0x`:
stripping is a no-op, no `0x` prefix can appear inside hex digits, and no
padding is needed. -/
theorem hex40_normalize (s : List Char) (hlen : s.length = 40)
    (hhex : ∀ c ∈ s, hexChar c = true) :
    normalize_address s = '0' :: 'x' :: pyLower s := by
  obtain ⟨c1, rest, hshape1⟩ : ∃ c1 rest, s = c1 :: rest := by
    cases s with
    | nil => simp at hlen
    | cons c1 rest => exact ⟨c1, rest, rfl⟩
  obtain ⟨c2, t, hshape2⟩ : ∃ c2 t, rest = c2 :: t := by
    cases rest with
    | nil => rw [hshape1] at hlen; simp at hlen
    | cons c2 t => exact ⟨c2, t, rfl⟩
  have hstrip : pyStrip s = s := by
    apply pyStrip_eq_self
    · rw [hshape1]
      simp only [List.headD_cons]
      exact (hexChar_facts c1 (hhex c1 (hshape1 ▸ List.mem_cons_self c1 rest))).1
    · cases hr : s.reverse with
      | nil => decide
      | cons d u =>
          simp only [List.headD_cons]
          have hd : d ∈ s := List.mem_reverse.mp (hr ▸ List.mem_cons_self d u)
          exact (hexChar_facts d (hhex d hd)).1
  have hst : starts0x (pyLower s) = false := by
    rw [hshape1, hshape2]
    show (pyCharLower c1 == '0' && pyCharLower c2 == 'x') = false
    have h2 : pyCharLower c2 ≠ 'x' := by
      refine (hexChar_facts c2 (hhex c2 ?_)).2.1
      rw [hshape1, hshape2]
      exact List.mem_cons_of_mem _ (List.mem_cons_self c2 t)
    rw [beq_eq_false_iff_ne.mpr h2, Bool.and_false]
  have hlow40 : 40 ≤ (pyLower s).length := by
    simp only [pyLower, List.length_map]
    omega
  unfold normalize_address
  simp only [addrCore]
  rw [hstrip, hst]
  simp only [Bool.false_eq_true, if_false]
  rw [pyZfill_of_le 40 _ hlow40]

/-- C9: the direction test of `parse_transfer_event` — lowercase the last 40
hex characters of the 32-byte padded topic, prefix `0x`, compare with the
analyzer's stored watched address — decides exactly the same predicate as
comparing `canonical(topic address)` with `canonical(watched)`: the stored
address is `normalize_address` of the raw input, and for a 40-hex-digit topic
slice the parsed string equals its canonical form, so no raw case-sensitive
comparison decides a match. -/
theorem transfer_direction_via_canonical (wethRaw watchedRaw t0 t1 t2 data : List Char)
    (h1len : (takeLast 40 t1).length = 40)
    (h1hex : ∀ c ∈ takeLast 40 t1, hexChar c = true)
    (h2len : (takeLast 40 t2).length = 40)
    (h2hex : ∀ c ∈ takeLast 40 t2, hexChar c = true) :
    (TxAnalyzer.make wethRaw watchedRaw).watched_address = normalize_address watchedRaw ∧
    ((parse_transfer_event [t0, t1, t2] data).1 = normalize_address watchedRaw ↔
      normalize_address (takeLast 40 t1) = normalize_address watchedRaw) ∧
    ((parse_transfer_event [t0, t1, t2] data).2.1 = normalize_address watchedRaw ↔
      normalize_address (takeLast 40 t2) = normalize_address watchedRaw) := by
  refine ⟨rfl, ?_, ?_⟩
  · rw [hex40_normalize _ h1len h1hex]
    exact Iff.rfl
  · rw [hex40_normalize _ h2len h2hex]
    exact Iff.rfl

/-- C9 witness: `transfer_direction_via_canonical` on the real Arbitrum
Transfer topics of src/tests/test_tx_analyzer.py. -/
theorem transfer_direction_via_canonical_witness :
    (TxAnalyzer.make WETH_CONTRACT WATCHED_ADDRESS).watched_address =
      normalize_address WATCHED_ADDRESS ∧
    ((parse_transfer_event [ERC20_TRANSFER_TOPIC,
        ("0x000000000000000000000000389938cf14be379217570d8e4619e51fbdafaa21").toList,
        ("0x0000000000000000000000000000000000deadbeef00112233445566778899aa").toList]
        (("0x000000000000000000000000000000000000000000000000008bc909c5707ec5").toList)).1 =
        normalize_address WATCHED_ADDRESS ↔
      normalize_address (takeLast 40
        (("0x000000000000000000000000389938cf14be379217570d8e4619e51fbdafaa21").toList)) =
        normalize_address WATCHED_ADDRESS) ∧
    ((parse_transfer_event [ERC20_TRANSFER_TOPIC,
        ("0x000000000000000000000000389938cf14be379217570d8e4619e51fbdafaa21").toList,
        ("0x0000000000000000000000000000000000deadbeef00112233445566778899aa").toList]
        (("0x000000000000000000000000000000000000000000000000008bc909c5707ec5").toList)).2.1 =
        normalize_address WATCHED_ADDRESS ↔
      normalize_address (takeLast 40
        (("0x0000000000000000000000000000000000deadbeef00112233445566778899aa").toList)) =
        normalize_address WATCHED_ADDRESS) :=
  transfer_direction_via_canonical WETH_CONTRACT WATCHED_ADDRESS ERC20_TRANSFER_TOPIC
    (("0x000000000000000000000000389938cf14be379217570d8e4619e51fbdafaa21").toList)
    (("0x0000000000000000000000000000000000deadbeef00112233445566778899aa").toList)
    (("0x000000000000000000000000000000000000000000000000008bc909c5707ec5").toList)
    (by decide) (by decide) (by decide) (by decide)

/-- C5: a receipt with `status="0x0"` parses to `TxDetail.status = 0`; every
such detail makes the block's `fail_count` positive; without transfer logs its
`net_wei_change` contribution is exactly `-gas_fee_wei`; and the spec's
end-to-end scenario (one failed transaction, `gasUsed=0x462ad`,
`effectiveGasPrice=0x139cff0`, no logs) yields
`BlockSummary{fail_count=1, net_wei_change=-(0x462ad*0x139cff0), has_fails}`. -/
theorem parse_receipt_fail_status_counted (a : TxAnalyzer) (r : Receipt)
    (thash : List Char) (hs : r.status = ("0x0").toList) :
    (a.parse_receipt r thash).status = 0 ∧
    (∀ (block : Block) (ds : List TxDetail), a.parse_receipt r thash ∈ ds →
      0 < (create_block_summary block ds).fail_count) ∧
    (r.logs = [] → txNetContribution (a.parse_receipt r thash) =
      -((a.parse_receipt r thash).gas_fee_wei : Int)) ∧
    testAnalyzer.analyze_block (fun _ => failReceipt) failBlock =
      some { has_fails := true, block_number := 432537070,
             net_wei_change := -((0x462ad * 0x139cff0 : Nat) : Int), tx_count := 1,
             fail_count := 1, total_gas_wei := 0x462ad * 0x139cff0 } := by
  have hst : (a.parse_receipt r thash).status = 0 := by
    show hexToNat r.status = 0
    rw [hs]
    decide
  refine ⟨hst, ?_, ?_, by decide⟩
  · intro block ds hmem
    simp only [create_block_summary]
    exact List.countP_pos_iff.mpr ⟨_, hmem, by simp [hst]⟩
  · intro hlogs
    simp only [txNetContribution, TxAnalyzer.parse_receipt, hlogs,
      List.filter_nil, List.map_nil, List.sum_nil]
    omega

/-- C5 witness: `parse_receipt_fail_status_counted` at the concrete failed
receipt of the tests. -/
theorem parse_receipt_fail_status_counted_witness :
    (testAnalyzer.parse_receipt failReceipt failTxHash).status = 0 ∧
    (∀ (block : Block) (ds : List TxDetail),
      testAnalyzer.parse_receipt failReceipt failTxHash ∈ ds →
      0 < (create_block_summary block ds).fail_count) ∧
    (failReceipt.logs = [] →
      txNetContribution (testAnalyzer.parse_receipt failReceipt failTxHash) =
        -((testAnalyzer.parse_receipt failReceipt failTxHash).gas_fee_wei : Int)) ∧
    testAnalyzer.analyze_block (fun _ => failReceipt) failBlock =
      some { has_fails := true, block_number := 432537070,
             net_wei_change := -((0x462ad * 0x139cff0 : Nat) : Int), tx_count := 1,
             fail_count := 1, total_gas_wei := 0x462ad * 0x139cff0 } :=
  parse_receipt_fail_status_counted testAnalyzer failReceipt failTxHash rfl

/-- The `analyze_block` match condition is false exactly when neither the
canonical `from` nor a present, nonempty, canonical `to` equals the watched
address. -/
theorem tx_matches_eq_false_iff (a : TxAnalyzer) (tx : BlockTx) :
    tx_matches a tx = false ↔
      (normalize_address tx.from_addr ≠ a.watched_address ∧
       ∀ t, tx.to_addr = some t → t ≠ [] → normalize_address t ≠ a.watched_address) := by
  unfold tx_matches txToNorm
  cases hto : tx.to_addr with
  | none =>
      simp [beq_eq_false_iff_ne]
  | some t =>
      by_cases ht : t = []
      · subst ht
        simp [beq_eq_false_iff_ne]
      · simp [ht, beq_eq_false_iff_ne]

/-- C8: `analyze_block` returns `None` iff no transaction of the block has
`canonical(from)` or (for a present, truthy `to`) `canonical(to)` equal to the
watched address; a contract-creation transaction (absent `to`) never matches
on `to`.  When some transaction matches, a summary is returned. -/
theorem analyze_block_none_iff_no_match (a : TxAnalyzer)
    (getReceipt : List Char → Receipt) (block : Block) :
    a.analyze_block getReceipt block = none ↔
      ∀ tx ∈ block.transactions,
        normalize_address tx.from_addr ≠ a.watched_address ∧
        ∀ t, tx.to_addr = some t → t ≠ [] → normalize_address t ≠ a.watched_address := by
  unfold TxAnalyzer.analyze_block
  constructor
  · intro h tx htx
    rw [← tx_matches_eq_false_iff]
    by_contra hne
    have htrue : tx_matches a tx = true := by
      cases hmt : tx_matches a tx with
      | true => rfl
      | false => exact absurd hmt hne
    have hmem : tx ∈ block.transactions.filter (tx_matches a) :=
      List.mem_filter.mpr ⟨htx, htrue⟩
    have hne2 : block.transactions.filter (tx_matches a) ≠ [] :=
      List.ne_nil_of_mem hmem
    have hne3 : ¬ ((block.transactions.filter (tx_matches a)).map fun tx =>
        a.parse_receipt (getReceipt tx.hash) tx.hash).isEmpty = true := by
      rw [List.isEmpty_iff, List.map_eq_nil_iff]
      exact hne2
    rw [if_neg hne3] at h
    simp at h
  · intro h
    have hfilter : block.transactions.filter (tx_matches a) = [] :=
      List.filter_eq_nil_iff.mpr fun tx htx => by
        rw [Bool.not_eq_true, tx_matches_eq_false_iff]
        exact h tx htx
    rw [hfilter]
    simp

/-- C6: on a fresh notifier the first `add_event` flushes immediately (one
send call, `last_sent` stamped, pending drained); a second `add_event` (once
`last_sent` is non-sentinel) performs no send and leaves exactly that one
event pending; and a forced flush on empty pending is a no-op that changes
nothing, in particular no send call and `last_sent` unchanged. -/
theorem notifier_first_event_and_empty_flush (e1 e2 : TxEvent)
    (now1 now2 now3 : Nat) (p1 p2 p3 : Option Int) (ok1 ok2 ok3 : Bool)
    (hpos : 0 < now1) :
    (add_event freshNotifier e1 now1 p1 ok1).sendCalls = 1 ∧
    (add_event freshNotifier e1 now1 p1 ok1).last_sent = now1 ∧
    (add_event freshNotifier e1 now1 p1 ok1).pending = [] ∧
    (add_event (add_event freshNotifier e1 now1 p1 ok1) e2 now2 p2 ok2).sendCalls =
      (add_event freshNotifier e1 now1 p1 ok1).sendCalls ∧
    (add_event (add_event freshNotifier e1 now1 p1 ok1) e2 now2 p2 ok2).pending = [e2] ∧
    (∀ st : NotifierState, st.pending = [] → force_flush st now3 p3 ok3 = st) := by
  have h1 : add_event freshNotifier e1 now1 p1 ok1 =
      { pending := [], last_sent := now1, sendCalls := 1,
        delivered := if ok1 then [format_report [e1] p1] else [] } := by
    unfold add_event freshNotifier flushStep sendStep
    simp
  have hne : ¬ (now1 = 0) := by omega
  refine ⟨by rw [h1], by rw [h1], by rw [h1], ?_, ?_, ?_⟩
  · rw [h1]
    unfold add_event
    simp [hne]
  · rw [h1]
    unfold add_event
    simp [hne]
  · intro st hp
    unfold force_flush flushStep
    rw [if_pos hp]

/-- C6 witness: `notifier_first_event_and_empty_flush` at concrete events and
times. -/
theorem notifier_first_event_and_empty_flush_witness :
    (add_event freshNotifier evA 11 none true).sendCalls = 1 ∧
    (add_event freshNotifier evA 11 none true).last_sent = 11 ∧
    (add_event freshNotifier evA 11 none true).pending = [] ∧
    (add_event (add_event freshNotifier evA 11 none true) evB 12 none true).sendCalls =
      (add_event freshNotifier evA 11 none true).sendCalls ∧
    (add_event (add_event freshNotifier evA 11 none true) evB 12 none true).pending = [evB] ∧
    (∀ st : NotifierState, st.pending = [] → force_flush st 13 none true = st) :=
  notifier_first_event_and_empty_flush evA evB 11 12 13 none none none true true true
    (by decide)

/-- C1 counterexample: with one accumulated event pending and a flush whose
delivery fails (`sendOk = false`), the event is removed from `pending` and is
in no delivered report — the flush discards the events it was flushing. -/
theorem flush_failed_send_discards_events :
    losingEvent ∈ pendingEventState.pending ∧
    (force_flush pendingEventState 6 none false).pending = [] ∧
    (force_flush pendingEventState 6 none false).delivered = [] := by
  refine ⟨List.mem_cons_self .., ?_, ?_⟩
  · rfl
  · rfl

/-- C1 (amended): a flush on nonempty pending removes the flushed events from
`pending` unconditionally, before delivery is attempted; the delivered log
grows only when the send succeeds, so a failed delivery loses the flushed
events (the send error is logged and swallowed). -/
theorem flush_discards_flushed_events_unconditionally (st : NotifierState)
    (now : Nat) (price : Option Int) (sendOk : Bool) (h : st.pending ≠ []) :
    (force_flush st now price sendOk).pending = [] ∧
    (force_flush st now price sendOk).last_sent = now ∧
    (force_flush st now price sendOk).delivered =
      (if sendOk then st.delivered ++ [format_report st.pending price]
       else st.delivered) := by
  unfold force_flush flushStep sendStep
  rw [if_neg h]
  exact ⟨rfl, rfl, rfl⟩

/-- C1 witness: `flush_discards_flushed_events_unconditionally` at the
concrete one-event state. -/
theorem flush_discards_flushed_events_unconditionally_witness :
    (force_flush pendingEventState 7 none true).pending = [] ∧
    (force_flush pendingEventState 7 none true).last_sent = 7 ∧
    (force_flush pendingEventState 7 none true).delivered =
      (if true then pendingEventState.delivered ++
        [format_report pendingEventState.pending none]
       else pendingEventState.delivered) :=
  flush_discards_flushed_events_unconditionally pendingEventState 7 none true
    (by decide)

set_option maxRecDepth 4000 in
/-- C3: at the spec's own example (one group, net −0.0005 ETH, aggregated
fail count 1) the report `format_report` produces carries the failure
indicator and the successful-txs line, but no `Неудачных` fail-count marker
anywhere — the fail-count marker required by the claim (and asserted by the
repository's own tests) is never emitted. -/
theorem format_report_no_fail_count_marker :
    (([losingEvent].map fun e => e.fail_count).sum = 1) ∧
    (format_report [losingEvent] none).contains '❌' = true ∧
    ¬ (failMarker <:+: format_report [losingEvent] none) ∧
    (("├ Successful txs: 0/1").toList <:+: format_report [losingEvent] none) := by
  refine ⟨by decide, by decide, by decide, by decide⟩

/-- Once fewer subscriptions than registrations are acknowledged and only
notification messages remain, the setup loop of `__proceed_subscriptions`
never terminates: it buffers every notification and keeps waiting for an
acknowledgement that will never arrive. -/
theorem proceed_subscriptions_stalls (setups : List SubSetup)
    (subs : List (List Char × Nat)) (hlt : subs.length < setups.length) :
    ∀ (msgs : List WsMsg), (∀ m ∈ msgs, ∃ nm, m = WsMsg.notif nm) →
      ∀ queue, proceed_subscriptions setups subs queue msgs = none := by
  intro msgs
  induction msgs with
  | nil =>
      intro _ queue
      unfold proceed_subscriptions
      rw [if_neg (by omega)]
  | cons m rest ih =>
      intro hall queue
      obtain ⟨nm, hm⟩ := hall m (List.mem_cons_self ..)
      subst hm
      unfold proceed_subscriptions
      rw [if_neg (by omega)]
      exact ih (fun m2 hm2 => hall m2 (List.mem_cons_of_mem _ hm2)) _

/-- C4: after an acknowledgement carrying an error for the first registration
and a successful acknowledgement for the second, the multiplexer's setup loop
(`while len(subscription_setups) > len(subscriptions)`) can never see its
condition become false — the errored registration never produces a
subscription — so however many event notifications follow, the demultiplexing
loop is never entered and no event is dispatched for the successfully
acknowledged subscription. -/
theorem error_ack_stalls_setup_loop (tail : List WsMsg)
    (htail : ∀ m ∈ tail, ∃ nm, m = WsMsg.notif nm) :
    proceed_subscriptions [setupHeads, setupLogs] [] []
      (WsMsg.ackErr 0 :: WsMsg.ackOk 1 ackSubId :: tail) = none := by
  unfold proceed_subscriptions
  rw [if_neg (by decide)]
  show proceed_subscriptions [setupHeads, setupLogs] [] []
    (WsMsg.ackOk 1 ackSubId :: tail) = none
  unfold proceed_subscriptions
  rw [if_neg (by decide)]
  show proceed_subscriptions [setupHeads, setupLogs]
    [(ackSubId, setupLogs.handler)] [] tail = none
  exact proceed_subscriptions_stalls _ _ (by decide) tail htail []

/-- C4 witness: the stalled run on a concrete message sequence with two
buffered notifications. -/
theorem error_ack_stalls_setup_loop_witness :
    proceed_subscriptions [setupHeads, setupLogs] [] []
      (WsMsg.ackErr 0 :: WsMsg.ackOk 1 ackSubId ::
        [WsMsg.notif ackSubId, WsMsg.notif ackSubId]) = none :=
  error_ack_stalls_setup_loop [WsMsg.notif ackSubId, WsMsg.notif ackSubId]
    (by
      intro m hm
      simp only [List.mem_cons, List.not_mem_nil, or_false] at hm
      rcases hm with rfl | rfl <;> exact ⟨ackSubId, rfl⟩)

/-- A consistent log oracle splits over adjacent closed subranges. -/
theorem getLogsRange_split (O : Nat → List GLog) (s m e : Nat)
    (h1 : s ≤ m + 1) (h2 : m ≤ e) :
    getLogsRange O s e = getLogsRange O s m ++ getLogsRange O (m + 1) e := by
  unfold getLogsRange
  rw [← List.flatMap_append]
  congr 1
  have hx := List.range'_append_1 s (m + 1 - s) (e + 1 - (m + 1))
  rw [show s + (m + 1 - s) = m + 1 from by omega] at hx
  rw [show e + 1 - (m + 1) + (m + 1 - s) = e + 1 - s from by omega] at hx
  exact hx.symm

/-- The chunked scan of `get_relevant_blocks` collects exactly the block
numbers of the un-chunked union, by induction on the chunk list. -/
theorem get_relevant_blocks_go (F T : Nat → List GLog) (c : Nat) (hc : 0 < c) :
    ∀ (n s e : Nat), e + 1 - s ≤ n → s ≤ e →
      get_relevant_blocks F T s e c = candidateBlocksSpec F T s e := by
  intro n
  induction n with
  | zero => intro s e hn hse; omega
  | succ n ih =>
      intro s e hn hse
      unfold get_relevant_blocks
      rw [pyRangeStep]
      rw [dif_pos ⟨hc, by omega⟩]
      rw [List.flatMap_cons, List.toFinset_append]
      by_cases hend : e < s + c
      · have hmin : min (s + c - 1) e = e := by omega
        have hrest : pyRangeStep (s + c) (e + 1) c = [] := by
          rw [pyRangeStep, dif_neg (by omega)]
        rw [hmin, hrest]
        simp only [List.flatMap_nil, List.toFinset_nil, Finset.union_empty]
        rfl
      · have hmin : min (s + c - 1) e = s + c - 1 := by omega
        rw [hmin]
        rw [show ((pyRangeStep (s + c) (e + 1) c).flatMap fun fromB =>
            ((getLogsRange F fromB (min (fromB + c - 1) e)) ++
              (getLogsRange T fromB (min (fromB + c - 1) e))).map
              fun l => hexToNat l.blockNumber).toFinset =
            get_relevant_blocks F T (s + c) e c from rfl]
        rw [ih (s + c) e (by omega) (by omega)]
        unfold candidateBlocksSpec
        rw [getLogsRange_split F s (s + c - 1) e (by omega) (by omega)]
        rw [getLogsRange_split T s (s + c - 1) e (by omega) (by omega)]
        rw [show s + c - 1 + 1 = s + c from by omega]
        ext x
        simp only [List.mem_toFinset, List.mem_map, List.mem_append,
          Finset.mem_union]
        constructor
        · rintro (⟨l, hl | hl, rfl⟩ | ⟨l, hl | hl, rfl⟩)
          · exact ⟨l, Or.inl (Or.inl hl), rfl⟩
          · exact ⟨l, Or.inr (Or.inl hl), rfl⟩
          · exact ⟨l, Or.inl (Or.inr hl), rfl⟩
          · exact ⟨l, Or.inr (Or.inr hl), rfl⟩
        · rintro ⟨l, (hl | hl) | (hl | hl), rfl⟩
          · exact Or.inl ⟨l, Or.inl hl, rfl⟩
          · exact Or.inr ⟨l, Or.inl hl, rfl⟩
          · exact Or.inl ⟨l, Or.inr hl, rfl⟩
          · exact Or.inr ⟨l, Or.inr hl, rfl⟩

/-- C7: for every `start ≤ end` and positive chunk size, the chunked two-topic
log scan returns exactly the deduplicated union of the block numbers carried
by the logs of the "from"-topic query and the "to"-topic query over the whole
closed range, and the returned set does not depend on the chunk size (the
oracle being consistent across subranges by construction: chunk queries
concatenate the per-block logs). -/
theorem get_relevant_blocks_union_chunk_independent (F T : Nat → List GLog)
    (s e c c2 : Nat) (hc : 0 < c) (hc2 : 0 < c2) (hse : s ≤ e) :
    get_relevant_blocks F T s e c = candidateBlocksSpec F T s e ∧
    get_relevant_blocks F T s e c = get_relevant_blocks F T s e c2 := by
  have h1 := get_relevant_blocks_go F T c hc (e + 1 - s) s e (le_refl _) hse
  have h2 := get_relevant_blocks_go F T c2 hc2 (e + 1 - s) s e (le_refl _) hse
  exact ⟨h1, by rw [h1, h2]⟩

/-- C7 witness: the scan equals the un-chunked union on a concrete oracle and
range, for chunk sizes 1 and 2. -/
theorem get_relevant_blocks_union_chunk_independent_witness :
    get_relevant_blocks oracleOne oracleEmpty 0 1 1 =
      candidateBlocksSpec oracleOne oracleEmpty 0 1 ∧
    get_relevant_blocks oracleOne oracleEmpty 0 1 1 =
      get_relevant_blocks oracleOne oracleEmpty 0 1 2 :=
  get_relevant_blocks_union_chunk_independent oracleOne oracleEmpty 0 1 1 2
    (by decide) (by decide) (by decide)
